import Mathlib

/-!
Verification development for the `llm_mapping` refinement subsystem
(`src/llm_mapping/iterative_refiner.py`, `src/llm_mapping/function_refiner.py`,
`src/llm_mapping/llm_mapping.py`).

The Python code is shallowly embedded: the external collaborators (the model
invocation chain, the regex used by `strip_thinking_tags`, `parse_json_markdown`
plus the pydantic validation, and the dynamic execution of generated code) are
modelled as oracle parameters carried by an environment structure, while every
piece of control flow, classification and bookkeeping that the repository
itself implements is translated directly from the source.  The retry loops are
written with an explicit fuel argument; the top-level entry points supply
`max_attempts` as fuel, which is exactly the number of retries the Python
`while True` loop can perform before its counter comparison fires, so the
fuel-exhaustion fallback branch is unreachable from the entry points.
-/

/-- A semi-structured Python value, enough structure for the claims: a dict
(modelled as an association list of string keys and atomic printable values)
or any non-dict value identified by its repr.  Mirrors the values flowing
through `source`, `function_result` and parsed replies. -/
inductive PyVal where
  | dict (entries : List (String × String))
  | other (rep : String)
deriving DecidableEq, Repr

/-- Python `type(v) == dict`. -/
def PyVal.isDict : PyVal → Bool
  | .dict _ => true
  | .other _ => false

/-- Token usage counters exposed by a model reply (`usage_metadata`). -/
structure Usage where
  input_tokens : Nat
  output_tokens : Nat
  total_tokens : Nat
deriving DecidableEq, Repr

/-- One reply object returned by `chain.invoke`: its textual content
(`response.text()`), its optional `usage_metadata`, and the elapsed wall time
observed for the call (only stored, never used in control decisions). -/
structure Reply where
  text : String
  usage : Option Usage
  time : Nat
deriving DecidableEq, Repr

/-- Outcome of one `chain.invoke(payload)` call: either it raises (any
transport / timeout / auth exception, carried as `str(e)`) or it returns a
reply object. -/
inductive InvokeOutcome where
  | exc (msg : String)
  | ok (reply : Reply)
deriving DecidableEq, Repr

/-- The closed failure taxonomy used verbatim as `error_type` strings in the
source. -/
inductive ErrorType where
  | LLM_CALL_EXCEPTION
  | PARSING_EXCEPTION
  | PYDANTIC_VALIDATION_ERROR
  | NO_CODE_BLOCK
  | FUNCTION_SYNTAX_ERROR
  | FUNCTION_NOT_FOUND
  | FUNCTION_NOT_CALLABLE
  | FUNCTION_EXECUTION_EXCEPTION
  | FUNCTION_RETURN_TYPE
deriving DecidableEq, Repr

/-- The `error_msg` field of an attempt record: the source stores either
`str(exception)` (free-form text) or the structured list produced by
`ValidationError.errors(...)`. -/
inductive ErrMsg where
  | s (v : String)
  | list (v : List String)
deriving DecidableEq, Repr

/-- The payload dict built by both refiner loops:
`{"input_json": src_copy, "correction_msg": correction_msg}`. -/
structure Payload where
  input_json : PyVal
  correction_msg : String
deriving DecidableEq, Repr

/-- Model of `str(x)` for an optional string the way the correction builders use it:
`str(single.get(key, ""))` yields `"None"` when the key is present but bound
to `None`. -/
def pyStrOfOpt : Option String → String
  | none => "None"
  | some s => s

/-- Model of `json.dumps(...)` restricted to the shapes `error_msg` can take
(`None`, a string, or a list of structured violation entries).  Character
escaping inside the dumped text is irrelevant to every claim. -/
def dumpsErrMsg : Option ErrMsg → String
  | none => "null"
  | some (.s v) => "\"" ++ v ++ "\""
  | some (.list l) => "[" ++ String.intercalate ", " (l.map (fun e => "\"" ++ e ++ "\"")) ++ "]"

/-! Executable models of the Python `str` primitives the source uses
(`in`, `endswith`, `split`, `strip`).  They are written over `List Char`
with structural or fuel-based recursion so that concrete runs evaluate
inside the kernel. -/

/-- Character equality through the numeric code point. -/
def charEq (a b : Char) : Bool := a.toNat == b.toNat

/-- Does the second list start with the first? -/
def listStartsWith : List Char → List Char → Bool
  | [], _ => true
  | _ :: _, [] => false
  | p :: ps, c :: cs => charEq p c && listStartsWith ps cs

/-- Does the first list contain the second as a contiguous sublist? -/
def containsSub : List Char → List Char → Bool
  | [], sep => sep.isEmpty
  | c :: rest, sep => listStartsWith sep (c :: rest) || containsSub rest sep

/-- Greedy left-to-right split on a separator, Python `str.split(sep)`
semantics.  The fuel argument (instantiated with the full length) only makes
the recursion structural; it never runs out. -/
def splitAux (sep : List Char) : Nat → List Char → List Char → List (List Char)
  | _, [], acc => [acc.reverse]
  | 0, l, acc => [acc.reverse ++ l]
  | fuel + 1, c :: cs, acc =>
    if sep.isEmpty = false && listStartsWith sep (c :: cs) then
      acc.reverse :: splitAux sep fuel ((c :: cs).drop sep.length) []
    else
      splitAux sep fuel cs (c :: acc)

/-- Python `s.split(sep)`. -/
def pySplit (s sep : String) : List String :=
  (splitAux sep.data s.data.length s.data []).map (fun l => String.mk l)

/-- Python whitespace (`str.strip` default set). -/
def isPyWs (c : Char) : Bool :=
  c.toNat == 32 || c.toNat == 10 || c.toNat == 9 || c.toNat == 13
    || c.toNat == 11 || c.toNat == 12

/-- Strip leading and trailing whitespace from a character list. -/
def trimChars (l : List Char) : List Char :=
  (List.dropWhile isPyWs ((List.dropWhile isPyWs l).reverse)).reverse

/-- Python `s.strip()`. -/
def pyTrim (s : String) : String := String.mk (trimChars s.data)

/-- Python `needle in haystack`. -/
def strContains (haystack needle : String) : Bool :=
  containsSub haystack.data needle.data

/-- Python `s.endswith(suffix)`. -/
def pyEndsWith (s suffix : String) : Bool :=
  listStartsWith suffix.data.reverse s.data.reverse

/-- The code block extraction of the code-generation pipeline,
`response_raw.split("```python")[1].split("```")[0].strip()`
(llm_mapping.py line 227). -/
def extractCode (s : String) : String :=
  pyTrim ((pySplit ((pySplit s "```python").getD 1 "") "```").headD "")

/-- The prompt types accepted by `LlmMapping.__init__`. -/
inductive PromptType where
  | few_shot
  | schema_driven
  | mapping_function
deriving DecidableEq, Repr

/-- The slice of a constructed `LlmMapping` object that the refiner
constructors inspect: whether `base_mapper.llm` is a `ChatOllama` instance and
the configured `prompt_type`. -/
structure LlmMappingModel where
  llm_is_chat_ollama : Bool
  prompt_type : PromptType
deriving DecidableEq, Repr

/-! ## IterativeRefiner (direct-mapping variant) -/

/-- Outcome of the combined `parse_json_markdown(raw)` +
`parser.pydantic_object.model_validate(parsed)` + `model_dump()` step inside
`IterativeRefiner._single_run`, as a deterministic function of the stripped
reply text: success yields the dumped dict, a `ValidationError` yields its
structured error list, any other exception yields `str(e)`. -/
inductive ParseOutcome where
  | ok (dumped : PyVal)
  | validationError (errs : List String)
  | exc (msg : String)
deriving Repr

/-- Environment of oracles for one `IterativeRefiner` run: the model chain
(indexed by attempt number to account for the nondeterminism of consecutive
calls), the `strip_thinking_tags` regex substitution, and the parse/validate
step. -/
structure IterEnv where
  invoke : Nat → InvokeOutcome
  strip : String → String
  parse : String → ParseOutcome

/-- The attempt record dict built by `IterativeRefiner._single_run`. -/
structure IterSingle where
  attempt : Nat
  payload : Payload
  llm_time : Option Nat
  response_raw : Option String
  response_parsed : Option PyVal
  error : Bool
  error_msg : Option ErrMsg
  error_type : Option ErrorType
  input_tokens : Option Nat
  output_tokens : Option Nat
  total_tokens : Option Nat
deriving DecidableEq, Repr

/-- Model of `IterativeRefiner._single_run(payload, attempt_no)`
(iterative_refiner.py lines 72-126).  Every failure of the model call is
caught and recorded as `LLM_CALL_EXCEPTION`; on a reply, the text is stripped
(`usage_metadata or {}` never raises), recorded as `response_raw`, and the
parse/validate step classifies `PYDANTIC_VALIDATION_ERROR` for a
`ValidationError` and `PARSING_EXCEPTION` for any other exception. -/
def iterSingleRun (env : IterEnv) (payload : Payload) (attempt_no : Nat) : IterSingle :=
  let base : IterSingle :=
    { attempt := attempt_no, payload := payload, llm_time := none,
      response_raw := none, response_parsed := none, error := false,
      error_msg := none, error_type := none, input_tokens := none,
      output_tokens := none, total_tokens := none }
  match env.invoke attempt_no with
  | .exc msg =>
      { base with error := true, error_msg := some (.s msg),
                  error_type := some .LLM_CALL_EXCEPTION }
  | .ok reply =>
      let base :=
        { base with input_tokens := reply.usage.map (fun (u : Usage) => u.input_tokens),
                    output_tokens := reply.usage.map (fun (u : Usage) => u.output_tokens),
                    total_tokens := reply.usage.map (fun (u : Usage) => u.total_tokens),
                    llm_time := some reply.time }
      let raw := env.strip reply.text
      let base := { base with response_raw := some raw }
      match env.parse raw with
      | .ok v => { base with response_parsed := some v }
      | .validationError errs =>
          { base with error := true, error_msg := some (.list errs),
                      error_type := some .PYDANTIC_VALIDATION_ERROR }
      | .exc msg =>
          { base with error := true, error_msg := some (.s msg),
                      error_type := some .PARSING_EXCEPTION }

/-- The correction message built at iterative_refiner.py lines 57-66 from the
single most recent attempt record. -/
def iterBuildCorrectionMsg (single : IterSingle) : String :=
  "The previous output was **invalid**.\n\n"
    ++ "This is exactly what you returned:\n"
    ++ "```json\n"
    ++ pyStrOfOpt single.response_raw
    ++ "\n```\n"
    ++ "Fix **ALL** issues and return **ONLY** one valid JSON object \n\n "
    ++ "Error list:\n"
    ++ dumpsErrMsg single.error_msg

/-- The dict returned by `IterativeRefiner.__call__`: a deep copy of the
terminal attempt record plus the `refinement_attempts` and `attempt_history`
keys. -/
structure IterResult where
  single : IterSingle
  refinement_attempts : Nat
  attempt_history : List IterSingle
deriving DecidableEq, Repr

/-- The refiner object: the wrapped mapper and the stored attempt bound. -/
structure IterativeRefiner where
  base_mapper : LlmMappingModel
  max_attempts : Nat
deriving DecidableEq, Repr

/-- Model of `IterativeRefiner.__init__(base_mapper, max_attempts)`
(iterative_refiner.py lines 19-28): `ValueError` when the wrapped model is not
a `ChatOllama` or the prompt type is `mapping_function`; otherwise the stored
bound is `max(1, max_attempts)`. -/
def IterativeRefiner.make (bm : LlmMappingModel) (max_attempts : Nat) :
    Except String IterativeRefiner :=
  if bm.llm_is_chat_ollama = false then
    .error "IterativeRefiner is intended for Ollama-based models only."
  else if bm.prompt_type = .mapping_function then
    .error "A refinement loop is not required for mapping_function prompts."
  else
    .ok { base_mapper := bm, max_attempts := max 1 max_attempts }

/-- The `while True` loop of `IterativeRefiner.__call__` (lines 40-66),
parameterized by the single-run step `sr` (the method call
`self._single_run(payload, attempts)`).  `fuel` bounds the number of retries
still permitted; the entry point passes `maxA`, which by the counter
comparison `attempts >= self.max_attempts` is exact, so the fuel-exhaustion
fallback (which returns the same terminal shape) is never taken. -/
def iterLoopAux (maxA : Nat) (sr : Payload → Nat → IterSingle) (srcCopy : PyVal) :
    Nat → Nat → String → List IterSingle → IterResult
  | fuel, attempts, correction, history =>
    let single := sr { input_json := srcCopy, correction_msg := correction } attempts
    let history2 := history ++ [single]
    if single.error = false ∨ maxA ≤ attempts then
      { single := single, refinement_attempts := attempts, attempt_history := history2 }
    else
      match fuel with
      | 0 =>
          { single := single, refinement_attempts := attempts, attempt_history := history2 }
      | fuel2 + 1 =>
          iterLoopAux maxA sr srcCopy fuel2 (attempts + 1)
            (iterBuildCorrectionMsg single) history2

/-- Model of `IterativeRefiner.__call__(source)` (lines 34-66): `src_copy` is a deep
copy of the `source` owned by the caller (a distinct object holding an equal value — in
this value-level embedding the copy is the value itself), attempts start at 0
with an empty correction message and empty history. -/
def IterativeRefiner.call (r : IterativeRefiner) (env : IterEnv) (source : PyVal) :
    IterResult :=
  iterLoopAux r.max_attempts (iterSingleRun env) source r.max_attempts 0 "" []

/-! ## FunctionRefiner (code-generation variant) -/

/-- A Python exception escaping to the caller (never caught by the loops). -/
inductive PyErr where
  | unboundLocal (name : String)
  | execError (msg : String)
deriving DecidableEq, Repr

/-- Environment for one `FunctionRefiner` run.  Only the model chain is ever
consulted: `_single_run` raises before reaching any later step (see
`fnSingleRun`). -/
structure FnEnv where
  invoke : Nat → InvokeOutcome

/-- The attempt record dict built by `FunctionRefiner._single_run`. -/
structure FnSingle where
  attempt : Nat
  payload : Payload
  llm_time : Option Nat
  response_raw : Option String
  response_parsed : Option String
  function_result : Option PyVal
  error : Bool
  error_msg : Option ErrMsg
  error_type : Option ErrorType
  input_tokens : Option Nat
  output_tokens : Option Nat
  total_tokens : Option Nat
deriving DecidableEq, Repr

/-- Message of the `TypeError` raised by `token_usage["input_tokens"]` when
`usage_metadata` is `None`; caught by the surrounding `except` and folded into
`LLM_CALL_EXCEPTION`.  (Exact wording immaterial.) -/
def noneSubscriptMsg : String := "NoneType object is not subscriptable"

/-- Model of `FunctionRefiner._single_run(payload, attempt_no)`
(function_refiner.py lines 89-177).  A failing model call (or a reply without
`usage_metadata`, whose subscription raises inside the same `try`) is recorded
as `LLM_CALL_EXCEPTION`.  On a successful call the code sets `llm_time` and
`response_raw` and then executes line 121, `raw = self.strip_thinking_tags(raw)`,
which reads the local variable `raw` before any assignment to it and therefore
raises `UnboundLocalError`.  The remainder of the method (source lines
123-177: code block extraction, `exec`, lookup, invocation and validation) is
unreachable and is consequently not part of the embedding. -/
def fnSingleRun (env : FnEnv) (payload : Payload) (attempt_no : Nat) :
    Except PyErr FnSingle :=
  let base : FnSingle :=
    { attempt := attempt_no, payload := payload, llm_time := none,
      response_raw := none, response_parsed := none, function_result := none,
      error := false, error_msg := none, error_type := none,
      input_tokens := none, output_tokens := none, total_tokens := none }
  match env.invoke attempt_no with
  | .exc msg =>
      .ok { base with error := true, error_msg := some (.s msg),
                      error_type := some .LLM_CALL_EXCEPTION }
  | .ok reply =>
      match reply.usage with
      | none =>
          .ok { base with error := true, error_msg := some (.s noneSubscriptMsg),
                          error_type := some .LLM_CALL_EXCEPTION }
      | some _ =>
          .error (.unboundLocal "raw")

/-- The retryability test of `FunctionRefiner.__call__` (lines 69-77):
`single["error_type"] not in {...}` is fatal; everything in the listed set is
retryable.  `LLM_CALL_EXCEPTION` (and an absent error type) is fatal. -/
def fnFatal : Option ErrorType → Bool
  | some .FUNCTION_SYNTAX_ERROR => false
  | some .FUNCTION_NOT_FOUND => false
  | some .FUNCTION_NOT_CALLABLE => false
  | some .FUNCTION_EXECUTION_EXCEPTION => false
  | some .PYDANTIC_VALIDATION_ERROR => false
  | some .NO_CODE_BLOCK => false
  | some .PARSING_EXCEPTION => false
  | _ => true

/-- The `err` preprocessing of `_build_correction_msg`: keep a string as is,
`json.dumps` anything else (`None` or a structured list). -/
def fnErrText : Option ErrMsg → String
  | some (.s v) => v
  | m => dumpsErrMsg m

/-- Model of `FunctionRefiner._build_correction_msg(failed_run)` (lines 179-208):
dedented template quoting the generated code (`str(...)` of
`response_parsed`) and the error text, built from the single failed attempt
record only. -/
def fnBuildCorrectionMsg (failed : FnSingle) : String :=
  "\nThe previous code was **invalid**.\n\n"
    ++ "```python\n"
    ++ pyStrOfOpt failed.response_parsed
    ++ "\n```\n\n"
    ++ "Please fix *all* problems and return **only one** Python code block\n"
    ++ "that defines a *callable* function **map_raw_to_standard(raw: dict) -> dict**\n"
    ++ "and nothing else - no markdown, no comments, no explanation.\n\n"
    ++ "Errors you must correct:\n"
    ++ fnErrText failed.error_msg
    ++ "\n"

/-- The dict returned by `FunctionRefiner.__call__` on termination: the
terminal attempt record plus `refinement_attempts` and `attempt_history`. -/
structure FnResult where
  single : FnSingle
  refinement_attempts : Nat
  attempt_history : List FnSingle
deriving DecidableEq, Repr

/-- The refiner object: the wrapped mapper and the stored attempt bound. -/
structure FunctionRefiner where
  base_mapper : LlmMappingModel
  max_attempts : Nat
deriving DecidableEq, Repr

/-- Model of `FunctionRefiner.__init__(base_mapper, max_attempts)`
(function_refiner.py lines 29-43): `ValueError` when the prompt type is not
`mapping_function` or the wrapped model is not a `ChatOllama`; otherwise the
stored bound is `max(1, max_attempts)`. -/
def FunctionRefiner.make (bm : LlmMappingModel) (max_attempts : Nat) :
    Except String FunctionRefiner :=
  if bm.prompt_type ≠ .mapping_function then
    .error "FunctionRefiner only makes sense for prompt_type mapping_function"
  else if bm.llm_is_chat_ollama = false then
    .error "FunctionRefiner is intended for Ollama models only."
  else
    .ok { base_mapper := bm, max_attempts := max 1 max_attempts }

/-- The `while True` loop of `FunctionRefiner.__call__` (lines 55-84),
parameterized by the single-run step `sr`.  An exception raised by
`_single_run` propagates out of the loop (first component `.error`).  The
second component is ghost instrumentation counting the `_single_run`
invocations performed, including the one that raised.  As in `iterLoopAux`,
the entry point passes `maxA` as fuel, making the fuel-exhaustion fallback
unreachable. -/
def fnLoopAux (maxA : Nat) (sr : Payload → Nat → Except PyErr FnSingle) (srcCopy : PyVal) :
    Nat → Nat → String → List FnSingle → Except PyErr FnResult × Nat
  | fuel, attempts, correction, history =>
    match sr { input_json := srcCopy, correction_msg := correction } attempts with
    | .error e => (.error e, 1)
    | .ok single =>
      let history2 := history ++ [single]
      if single.error = false then
        (.ok { single := single, refinement_attempts := attempts,
               attempt_history := history2 }, 1)
      else if fnFatal single.error_type = true ∨ maxA ≤ attempts then
        (.ok { single := single, refinement_attempts := attempts,
               attempt_history := history2 }, 1)
      else
        match fuel with
        | 0 =>
            (.ok { single := single, refinement_attempts := attempts,
                   attempt_history := history2 }, 1)
        | fuel2 + 1 =>
            let rest := fnLoopAux maxA sr srcCopy fuel2 (attempts + 1)
              (fnBuildCorrectionMsg single) history2
            (rest.1, rest.2 + 1)

/-- Model of `FunctionRefiner.__call__(source)` (lines 49-84): deep-copies the source,
then drives the loop from attempt 0, empty correction message and empty
history.  Returns the loop outcome together with the ghost `_single_run`
invocation count. -/
def FunctionRefiner.call (r : FunctionRefiner) (env : FnEnv) (source : PyVal) :
    Except PyErr FnResult × Nat :=
  fnLoopAux r.max_attempts (fnSingleRun env) source r.max_attempts 0 "" []

/-! ## LlmMapping.__process_mapping_function (single code-generation mapping call) -/

/-- Outcome of `parser.pydantic_object.model_validate(output)` on the value
returned by the generated function: either valid or a `ValidationError`
carrying its structured error list. -/
inductive ValidateOutcome where
  | valid
  | invalid (errs : List String)
deriving Repr

/-- Outcome of invoking the generated function on an argument object.  Python
passes the object by reference, so the call also yields the post-state of the
argument (`argPost`), which differs from the argument when the generated code
mutates it in place. -/
inductive CallOutcome where
  | raised (msg : String) (argPost : PyVal)
  | returns (out : PyVal) (argPost : PyVal)

/-- A Python value a generated source may bind to the fixed entry-point name:
the value `None`, some other value that is not callable (identified by its
repr), or a callable. -/
inductive PyBinding where
  | pyNone
  | notCallable (rep : String)
  | callable (callFn : PyVal → CallOutcome)

/-- The executed namespace (`local_vars` after `exec`): whether the fixed
entry-point name is bound at all and, if so, to what.  `binding = none` means
the name is absent from the namespace; `binding = some .pyNone` means the
name is present but bound to the Python value `None`.  The lookup
`local_vars.get(name, None)` yields the Python value `None` in both of these
cases, so the `is None` test in the source conflates them. -/
structure ExecNamespace where
  binding : Option PyBinding

/-- Outcome of `exec(code_str, {}, local_vars)`: a `SyntaxError` (the only
exception the source catches there), any other exception raised while the
top-level statements of the generated source run (uncaught, it propagates),
or a populated namespace. -/
inductive ExecOutcome where
  | syntaxError (msg : String)
  | raised (msg : String)
  | ok (ns : ExecNamespace)

/-- Environment of oracles for one `LlmMapping.__process_mapping_function`
call: the model chain (one invocation, no loop), the `__strip_thinking_tags`
regex substitution, the dynamic execution of a source string, and the
pydantic validation of the produced record. -/
structure MFEnv where
  invoke : InvokeOutcome
  strip : String → String
  execO : String → ExecOutcome
  validate : PyVal → ValidateOutcome

/-- The result dict built by `LlmMapping.__process_mapping_function`. -/
structure MFRes where
  llm_time : Option Nat
  response_raw : Option String
  response_parsed : Option String
  function_result : Option PyVal
  error : Bool
  error_msg : Option ErrMsg
  error_type : Option ErrorType
  input_tokens : Option Nat
  output_tokens : Option Nat
  total_tokens : Option Nat
deriving DecidableEq, Repr

/-- Model of `LlmMapping.__process_mapping_function(template_vars, source)`
(llm_mapping.py lines 174-284).  The first component is the returned result
dict, or the exception propagating to the caller (`exec` catches only
`SyntaxError`; the pydantic step catches only `ValidationError`).  The second
component is the final value of the object the caller passed as `source`: the
generated function is applied to that object itself (line 261), so its
in-place mutations become visible to the caller. -/
def processMappingFunction (env : MFEnv) (source : PyVal) :
    Except PyErr MFRes × PyVal :=
  let base : MFRes :=
    { llm_time := none, response_raw := none, response_parsed := none,
      function_result := none, error := false, error_msg := none,
      error_type := none, input_tokens := none, output_tokens := none,
      total_tokens := none }
  match env.invoke with
  | .exc msg =>
      (.ok { base with error := true, error_msg := some (.s msg),
                       error_type := some .LLM_CALL_EXCEPTION }, source)
  | .ok reply =>
      match reply.usage with
      | none =>
          (.ok { base with error := true, error_msg := some (.s noneSubscriptMsg),
                           error_type := some .LLM_CALL_EXCEPTION }, source)
      | some u =>
          let base :=
            { base with input_tokens := some u.input_tokens,
                        output_tokens := some u.output_tokens,
                        total_tokens := some u.total_tokens,
                        llm_time := some reply.time }
          let response_raw := pyTrim reply.text
          let base := { base with response_raw := some response_raw }
          let stripped := env.strip response_raw
          if strContains stripped "```python" = false ∨ pyEndsWith stripped "```" = false then
            (.ok { base with
                     error := true,
                     error_msg := some (.s "No code block found in the response."),
                     error_type := some .NO_CODE_BLOCK }, source)
          else
            let code_str := extractCode stripped
            match env.execO code_str with
            | .syntaxError msg =>
                (.ok { base with error := true, error_msg := some (.s msg),
                                 error_type := some .FUNCTION_SYNTAX_ERROR }, source)
            | .raised msg => (.error (.execError msg), source)
            | .ok ns =>
                -- map_raw_to_standard = local_vars.get("map_raw_to_standard", None):
                -- an absent name and a name bound to None both yield the
                -- Python value None here, and the subsequent `is None` test
                -- classifies both FUNCTION_NOT_FOUND; only a present binding
                -- that is neither None nor callable reaches the
                -- `not callable` branch.
                match ns.binding.getD .pyNone with
                | .pyNone =>
                    (.ok { base with
                             error := true,
                             error_msg := some (.s "map_raw_to_standard function not found in the response."),
                             error_type := some .FUNCTION_NOT_FOUND }, source)
                | .notCallable _ =>
                    (.ok { base with
                             error := true,
                             error_msg := some (.s "map_raw_to_standard function not found in the response."),
                             error_type := some .FUNCTION_NOT_CALLABLE }, source)
                | .callable f =>
                    let base := { base with response_parsed := some code_str }
                    match f source with
                    | .raised msg post =>
                        (.ok { base with
                                 error := true,
                                 error_msg := some (.s msg),
                                 error_type := some .FUNCTION_EXECUTION_EXCEPTION }, post)
                    | .returns out post =>
                        let base := { base with function_result := some out }
                        if out.isDict = false then
                          (.ok { base with
                                   error := true,
                                   error_msg := some (.s "Function did not return a dictionary."),
                                   error_type := some .FUNCTION_RETURN_TYPE }, post)
                        else
                          match env.validate out with
                          | .valid => (.ok base, post)
                          | .invalid errs =>
                              (.ok { base with
                                       error := true,
                                       error_msg := some (.list errs),
                                       error_type := some .PYDANTIC_VALIDATION_ERROR }, post)

/-! ## Concrete fixtures used by witnesses and counterexamples -/

/-- A wrapped mapper suitable for `IterativeRefiner`: a `ChatOllama` model with
a direct-mapping prompt. -/
def bmIter : LlmMappingModel := { llm_is_chat_ollama := true, prompt_type := .few_shot }

/-- A wrapped mapper suitable for `FunctionRefiner`: a `ChatOllama` model with
the `mapping_function` prompt. -/
def bmFn : LlmMappingModel := { llm_is_chat_ollama := true, prompt_type := .mapping_function }

/-- A caller-supplied raw input record. -/
def srcA : PyVal := .dict [("x", "5")]

/-- Token usage reported by the fixture replies. -/
def usageA : Usage := { input_tokens := 7, output_tokens := 11, total_tokens := 18 }

/-- A reply whose text parses to nothing useful. -/
def replyNoJson : Reply := { text := "oops", usage := some usageA, time := 1 }

/-- Adapter behavior: the model always answers, but the reply never parses
(`PARSING_EXCEPTION` on every attempt). -/
def envParseFail : IterEnv :=
  { invoke := fun _ => .ok replyNoJson, strip := id,
    parse := fun _ => .exc "Invalid json output" }

/-- Adapter behavior: the first reply parses and validates. -/
def envParseOk : IterEnv :=
  { invoke := fun _ => .ok replyNoJson, strip := id, parse := fun _ => .ok srcA }

/-- Adapter behavior: every model call raises (transport failure). -/
def envInvokeExc : IterEnv :=
  { invoke := fun _ => .exc "connection refused", strip := id,
    parse := fun _ => .exc "unreachable" }

/-- Code-generation adapter behavior: every model call raises. -/
def envFnInvokeExc : FnEnv := { invoke := fun _ => .exc "connection refused" }

/-- A reply carrying a well-formed generated function. -/
def replyFnCode : Reply :=
  { text := "```python\ndef map_raw_to_standard(raw):\n    return raw\n```",
    usage := some usageA, time := 1 }

/-- Code-generation adapter behavior: the model call succeeds. -/
def envFnReplyOk : FnEnv := { invoke := fun _ => .ok replyFnCode }

/-- A reply whose fenced block raises at top level when executed. -/
def replyMFDivZero : Reply :=
  { text := "```python\nx = 1 / 0\n```", usage := some usageA, time := 1 }

/-- Mapping-call behavior: the generated code raises `ZeroDivisionError` while
`exec` runs its top-level statements. -/
def envMFExecRaises : MFEnv :=
  { invoke := .ok replyMFDivZero, strip := id,
    execO := fun _ => .raised "division by zero", validate := fun _ => .valid }

/-- Mapping-call behavior: `exec` succeeds but defines no
`map_raw_to_standard`. -/
def envMFNotFound : MFEnv :=
  { invoke := .ok replyFnCode, strip := id,
    execO := fun _ => .ok { binding := none }, validate := fun _ => .valid }

/-- Mapping-call behavior: `exec` binds `map_raw_to_standard` to a non-callable
value. -/
def envMFNotCallable : MFEnv :=
  { invoke := .ok replyFnCode, strip := id,
    execO := fun _ => .ok { binding := some (.notCallable "int") },
    validate := fun _ => .valid }

/-- A reply whose generated source binds the entry-point name to `None`
(`map_raw_to_standard = None`): the name is present in the executed
namespace but its value is not callable. -/
def replyNoneBinding : Reply :=
  { text := "```python\nmap_raw_to_standard = None\n```",
    usage := some usageA, time := 1 }

/-- Mapping-call behavior: `exec` succeeds and leaves `map_raw_to_standard`
present but bound to `None`. -/
def envMFNoneBinding : MFEnv :=
  { invoke := .ok replyNoneBinding, strip := id,
    execO := fun _ => .ok { binding := some .pyNone },
    validate := fun _ => .valid }

/-- The record the mutating generated function returns. -/
def mutOut : PyVal := .dict [("device_id", "1")]

/-- The post-state the mutating generated function leaves in its argument. -/
def mutPost : PyVal := .dict [("x", "5"), ("mutated", "yes")]

/-- Mapping-call behavior: the generated function returns a valid record but
also mutates its argument in place. -/
def envMFMutating : MFEnv :=
  { invoke := .ok replyFnCode, strip := id,
    execO := fun _ => .ok { binding := some (.callable (fun _ => .returns mutOut mutPost)) },
    validate := fun _ => .valid }


/-- Test for "the constructor rejected the configuration". -/
def exceptIsError {ε α : Type} : Except ε α → Bool
  | .error _ => true
  | .ok _ => false

/-- The attempt record produced by `envFnInvokeExc` on attempt 0. -/
def fnExcSingle0 : FnSingle :=
  { attempt := 0, payload := { input_json := srcA, correction_msg := "" },
    llm_time := none, response_raw := none, response_parsed := none,
    function_result := none, error := true,
    error_msg := some (.s "connection refused"),
    error_type := some ErrorType.LLM_CALL_EXCEPTION,
    input_tokens := none, output_tokens := none, total_tokens := none }

/-- The terminal result of the `envFnInvokeExc` run. -/
def fnExcResult : FnResult :=
  { single := fnExcSingle0, refinement_attempts := 0, attempt_history := [fnExcSingle0] }

/-- A successful code-generation attempt record (used to exercise the
loop-level success-is-terminal statement). -/
def fnOkSingle : FnSingle :=
  { attempt := 0, payload := { input_json := srcA, correction_msg := "" },
    llm_time := some 1, response_raw := some "def map_raw_to_standard(raw):\n    return raw",
    response_parsed := some "def map_raw_to_standard(raw):\n    return raw",
    function_result := some srcA, error := false, error_msg := none,
    error_type := none, input_tokens := some 7, output_tokens := some 11,
    total_tokens := some 18 }

/-- The first attempt record of the successful `envParseOk` run. -/
def iterOkSingle0 : IterSingle :=
  iterSingleRun envParseOk { input_json := srcA, correction_msg := "" } 0

/-! ## Generic loop invariants -/

/-- The feedback-chaining discipline of a recorded history: the first entry
was requested with the initial correction message `c`, and every later entry
was requested with exactly the message built (by `build`) from its immediate
predecessor — hence the feedback entering attempt `k+1` is a function of
the record of attempt `k` alone. -/
def chainedFrom {S : Type} (build msgOf : S → String) : String → List S → Prop
  | _, [] => True
  | c, s :: rest => msgOf s = c ∧ chainedFrom build msgOf (build s) rest

/-- The correction message that would be passed to the attempt following a
history, starting from initial message `c`. -/
def chainTail {S : Type} (build : S → String) : String → List S → String
  | c, [] => c
  | _, s :: rest => chainTail build (build s) rest

theorem chainTail_concat {S : Type} (build : S → String) (c : String)
    (h : List S) (s : S) : chainTail build c (h ++ [s]) = build s := by
  induction h generalizing c with
  | nil => rfl
  | cons t rest ih => simpa [chainTail] using ih (build t)

theorem chainedFrom_concat {S : Type} (build msgOf : S → String) (c : String)
    (h : List S) (s : S) (hh : chainedFrom build msgOf c h)
    (hs : msgOf s = chainTail build c h) :
    chainedFrom build msgOf c (h ++ [s]) := by
  induction h generalizing c with
  | nil => exact ⟨hs, trivial⟩
  | cons t rest ih =>
      exact ⟨hh.1, ih (build t) hh.2 hs⟩

theorem iterLoopAux_basic (maxA : Nat) (sr : Payload → Nat → IterSingle) (src : PyVal) :
    ∀ fuel attempts correction history,
      ((iterLoopAux maxA sr src fuel attempts correction history).attempt_history.length
          + attempts
        = history.length
          + (iterLoopAux maxA sr src fuel attempts correction history).refinement_attempts
          + 1)
      ∧ attempts ≤ (iterLoopAux maxA sr src fuel attempts correction history).refinement_attempts
      ∧ (iterLoopAux maxA sr src fuel attempts correction history).refinement_attempts
          ≤ attempts + fuel
      ∧ (iterLoopAux maxA sr src fuel attempts correction history).attempt_history.getLast?
          = some (iterLoopAux maxA sr src fuel attempts correction history).single := by
  intro fuel
  induction fuel with
  | zero =>
      intro a c h
      simp only [iterLoopAux]
      split
      · refine ⟨by simp; omega, Nat.le_refl a, by simp, by simp⟩
      · refine ⟨by simp; omega, Nat.le_refl a, by simp, by simp⟩
  | succ fuel ih =>
      intro a c h
      simp only [iterLoopAux]
      split
      · refine ⟨by simp; omega, Nat.le_refl a, by simp, by simp⟩
      · obtain ⟨h1, h2, h3, h4⟩ :=
          ih (a + 1)
            (iterBuildCorrectionMsg (sr { input_json := src, correction_msg := c } a))
            (h ++ [sr { input_json := src, correction_msg := c } a])
        simp only [List.length_append, List.length_cons, List.length_nil] at h1
        refine ⟨by omega, by omega, by omega, h4⟩

theorem iterSingleRun_payload (env : IterEnv) (p : Payload) (k : Nat) :
    (iterSingleRun env p k).payload = p := by
  rcases hinv : env.invoke k with msg | reply
  · simp only [iterSingleRun, hinv]
  · simp only [iterSingleRun, hinv]
    rcases hp : env.parse (env.strip reply.text) with v | errs | msg2 <;> simp only [hp]

theorem iterLoopAux_chained (maxA : Nat) (sr : Payload → Nat → IterSingle) (src : PyVal)
    (hpay : ∀ p k, (sr p k).payload = p) (c0 : String) :
    ∀ fuel attempts correction history,
      chainedFrom iterBuildCorrectionMsg (fun s => s.payload.correction_msg) c0 history →
      chainTail iterBuildCorrectionMsg c0 history = correction →
      chainedFrom iterBuildCorrectionMsg (fun s => s.payload.correction_msg) c0
        (iterLoopAux maxA sr src fuel attempts correction history).attempt_history := by
  intro fuel
  induction fuel with
  | zero =>
      intro a c h hh ht
      have hstep : chainedFrom iterBuildCorrectionMsg (fun s => s.payload.correction_msg) c0
          (h ++ [sr { input_json := src, correction_msg := c } a]) :=
        chainedFrom_concat _ _ _ _ _ hh (by rw [hpay, ht])
      simp only [iterLoopAux]
      split
      · exact hstep
      · exact hstep
  | succ fuel ih =>
      intro a c h hh ht
      have hstep : chainedFrom iterBuildCorrectionMsg (fun s => s.payload.correction_msg) c0
          (h ++ [sr { input_json := src, correction_msg := c } a]) :=
        chainedFrom_concat _ _ _ _ _ hh (by rw [hpay, ht])
      simp only [iterLoopAux]
      split
      · exact hstep
      · exact ih (a + 1) _ _ hstep (chainTail_concat _ _ _ _)

theorem iterLoopAux_all_error (maxA : Nat) (sr : Payload → Nat → IterSingle) (src : PyVal)
    (hall : ∀ p k, (sr p k).error = true)
    (htype : ∀ p k, (sr p k).error_type = some ErrorType.LLM_CALL_EXCEPTION) :
    ∀ fuel attempts correction history, attempts + fuel = maxA →
      (iterLoopAux maxA sr src fuel attempts correction history).refinement_attempts = maxA
      ∧ (iterLoopAux maxA sr src fuel attempts correction history).single.error_type
          = some ErrorType.LLM_CALL_EXCEPTION := by
  intro fuel
  induction fuel with
  | zero =>
      intro a c h hfa
      simp only [iterLoopAux]
      split
      · exact ⟨by simpa using hfa, htype _ _⟩
      · exact ⟨by simpa using hfa, htype _ _⟩
  | succ fuel ih =>
      intro a c h hfa
      simp only [iterLoopAux]
      split
      · next hcond =>
          rcases hcond with hcond | hcond
          · rw [hall] at hcond; cases hcond
          · omega
      · exact ih (a + 1) _ _ (by omega)

theorem iterLoopAux_success (maxA : Nat) (sr : Payload → Nat → IterSingle) (src : PyVal)
    (fuel attempts : Nat) (correction : String) (history : List IterSingle)
    (hok : (sr { input_json := src, correction_msg := correction } attempts).error = false) :
    iterLoopAux maxA sr src fuel attempts correction history =
      { single := sr { input_json := src, correction_msg := correction } attempts,
        refinement_attempts := attempts,
        attempt_history :=
          history ++ [sr { input_json := src, correction_msg := correction } attempts] } := by
  cases fuel with
  | zero => simp [iterLoopAux, hok]
  | succ fuel => simp [iterLoopAux, hok]

theorem iterLoopAux_mem_src (maxA : Nat) (sr : Payload → Nat → IterSingle) (src : PyVal)
    (hpay : ∀ p k, (sr p k).payload = p) :
    ∀ fuel attempts correction history,
      (∀ s ∈ history, s.payload.input_json = src) →
      ∀ s ∈ (iterLoopAux maxA sr src fuel attempts correction history).attempt_history,
        s.payload.input_json = src := by
  intro fuel
  induction fuel with
  | zero =>
      intro a c h hh
      simp only [iterLoopAux]
      split
      · intro s hs
        rcases List.mem_append.mp hs with hs | hs
        · exact hh s hs
        · simp at hs; subst hs; rw [hpay]
      · intro s hs
        rcases List.mem_append.mp hs with hs | hs
        · exact hh s hs
        · simp at hs; subst hs; rw [hpay]
  | succ fuel ih =>
      intro a c h hh
      simp only [iterLoopAux]
      split
      · intro s hs
        rcases List.mem_append.mp hs with hs | hs
        · exact hh s hs
        · simp at hs; subst hs; rw [hpay]
      · refine ih (a + 1) _ _ ?_
        intro s hs
        rcases List.mem_append.mp hs with hs | hs
        · exact hh s hs
        · simp at hs; subst hs; rw [hpay]

theorem iterMake_ok {bm : LlmMappingModel} {n : Nat} {r : IterativeRefiner}
    (h : IterativeRefiner.make bm n = .ok r) :
    r = { base_mapper := bm, max_attempts := max 1 n } := by
  unfold IterativeRefiner.make at h
  split_ifs at h
  rw [Except.ok.injEq] at h
  exact h.symm

theorem fnMake_ok {bm : LlmMappingModel} {n : Nat} {r : FunctionRefiner}
    (h : FunctionRefiner.make bm n = .ok r) :
    r = { base_mapper := bm, max_attempts := max 1 n } := by
  unfold FunctionRefiner.make at h
  split_ifs at h
  rw [Except.ok.injEq] at h
  exact h.symm

theorem fnSingleRun_payload (env : FnEnv) (p : Payload) (k : Nat) (s : FnSingle)
    (h : fnSingleRun env p k = .ok s) : s.payload = p := by
  rcases hinv : env.invoke k with msg | reply
  · simp only [fnSingleRun, hinv] at h
    injection h with h
    rw [← h]
  · rcases hu : reply.usage with _ | u
    · simp only [fnSingleRun, hinv, hu] at h
      injection h with h
      rw [← h]
    · simp only [fnSingleRun, hinv, hu] at h
      cases h

theorem fnLoopAux_ok_inv (maxA : Nat) (sr : Payload → Nat → Except PyErr FnSingle)
    (src : PyVal) :
    ∀ fuel attempts correction history res n,
      fnLoopAux maxA sr src fuel attempts correction history = (.ok res, n) →
      (res.attempt_history.length + attempts
        = history.length + res.refinement_attempts + 1)
      ∧ attempts ≤ res.refinement_attempts
      ∧ res.attempt_history.getLast? = some res.single := by
  intro fuel
  induction fuel with
  | zero =>
      intro a c h res n heq
      simp only [fnLoopAux] at heq
      rcases hsr : sr { input_json := src, correction_msg := c } a with e | single <;>
        rw [hsr] at heq
      · injection heq with ha hb
        exact Except.noConfusion ha
      · simp only at heq
        split at heq
        · injection heq with ha hb
          injection ha with ha
          subst ha
          exact ⟨by simp; omega, Nat.le_refl a, by simp⟩
        · split at heq
          · injection heq with ha hb
            injection ha with ha
            subst ha
            exact ⟨by simp; omega, Nat.le_refl a, by simp⟩
          · injection heq with ha hb
            injection ha with ha
            subst ha
            exact ⟨by simp; omega, Nat.le_refl a, by simp⟩
  | succ fuel ih =>
      intro a c h res n heq
      rw [fnLoopAux.eq_def] at heq
      dsimp only at heq
      rcases hsr : sr { input_json := src, correction_msg := c } a with e | single <;>
        rw [hsr] at heq
      · injection heq with ha hb
        exact Except.noConfusion ha
      · simp only at heq
        split at heq
        · injection heq with ha hb
          injection ha with ha
          subst ha
          exact ⟨by simp; omega, Nat.le_refl a, by simp⟩
        · split at heq
          · injection heq with ha hb
            injection ha with ha
            subst ha
            exact ⟨by simp; omega, Nat.le_refl a, by simp⟩
          · rcases hrec : fnLoopAux maxA sr src fuel (a + 1)
                (fnBuildCorrectionMsg single) (h ++ [single]) with ⟨res2, n2⟩
            rw [hrec] at heq
            dsimp only at heq
            injection heq with ha hb
            obtain ⟨hlen, hle, hlast⟩ :=
              ih (a + 1) (fnBuildCorrectionMsg single) (h ++ [single]) res n2
                (by rw [hrec, ha])
            simp only [List.length_append, List.length_cons, List.length_nil] at hlen
            exact ⟨by omega, by omega, hlast⟩

theorem fnLoopAux_count_le (maxA : Nat) (sr : Payload → Nat → Except PyErr FnSingle)
    (src : PyVal) :
    ∀ fuel attempts correction history,
      (fnLoopAux maxA sr src fuel attempts correction history).2 ≤ fuel + 1 := by
  intro fuel
  induction fuel with
  | zero =>
      intro a c h
      simp only [fnLoopAux]
      rcases sr { input_json := src, correction_msg := c } a with e | single
      · simp
      · dsimp only
        split
        · simp
        · split <;> simp
  | succ fuel ih =>
      intro a c h
      rw [fnLoopAux.eq_def]
      dsimp only
      rcases sr { input_json := src, correction_msg := c } a with e | single
      · simp
      · dsimp only
        split
        · simp
        · split
          · simp
          · have := ih (a + 1) (fnBuildCorrectionMsg single) (h ++ [single])
            dsimp only
            omega

theorem fnLoopAux_success (maxA : Nat) (sr : Payload → Nat → Except PyErr FnSingle)
    (src : PyVal) (fuel attempts : Nat) (c : String) (h : List FnSingle)
    (single : FnSingle)
    (hsr : sr { input_json := src, correction_msg := c } attempts = .ok single)
    (hok : single.error = false) :
    fnLoopAux maxA sr src fuel attempts c h =
      (.ok { single := single, refinement_attempts := attempts,
             attempt_history := h ++ [single] }, 1) := by
  cases fuel <;> (rw [fnLoopAux.eq_def]; dsimp only; rw [hsr]; simp [hok])

theorem fnLoopAux_fatal (maxA : Nat) (sr : Payload → Nat → Except PyErr FnSingle)
    (src : PyVal) (fuel attempts : Nat) (c : String) (h : List FnSingle)
    (single : FnSingle)
    (hsr : sr { input_json := src, correction_msg := c } attempts = .ok single)
    (herr : single.error = true)
    (hfatal : fnFatal single.error_type = true) :
    fnLoopAux maxA sr src fuel attempts c h =
      (.ok { single := single, refinement_attempts := attempts,
             attempt_history := h ++ [single] }, 1) := by
  cases fuel <;> (rw [fnLoopAux.eq_def]; dsimp only; rw [hsr]; simp [herr, hfatal])

theorem fnLoopAux_raise (maxA : Nat) (sr : Payload → Nat → Except PyErr FnSingle)
    (src : PyVal) (fuel attempts : Nat) (c : String) (h : List FnSingle)
    (e : PyErr)
    (hsr : sr { input_json := src, correction_msg := c } attempts = .error e) :
    fnLoopAux maxA sr src fuel attempts c h = (.error e, 1) := by
  cases fuel <;> (rw [fnLoopAux.eq_def]; dsimp only; rw [hsr])

theorem fnLoopAux_chained (maxA : Nat) (sr : Payload → Nat → Except PyErr FnSingle)
    (src : PyVal) (hpay : ∀ p k s, sr p k = .ok s → s.payload = p) (c0 : String) :
    ∀ fuel attempts correction history res n,
      fnLoopAux maxA sr src fuel attempts correction history = (.ok res, n) →
      chainedFrom fnBuildCorrectionMsg (fun s => s.payload.correction_msg) c0 history →
      chainTail fnBuildCorrectionMsg c0 history = correction →
      chainedFrom fnBuildCorrectionMsg (fun s => s.payload.correction_msg) c0
        res.attempt_history := by
  intro fuel
  induction fuel with
  | zero =>
      intro a c h res n heq hh ht
      simp only [fnLoopAux] at heq
      rcases hsr : sr { input_json := src, correction_msg := c } a with e | single <;>
        rw [hsr] at heq
      · injection heq with ha hb
        exact Except.noConfusion ha
      · have hstep : chainedFrom fnBuildCorrectionMsg (fun s => s.payload.correction_msg) c0
            (h ++ [single]) :=
          chainedFrom_concat _ _ _ _ _ hh (by rw [hpay _ _ _ hsr, ht])
        simp only at heq
        split at heq
        · injection heq with ha hb
          injection ha with ha
          subst ha
          exact hstep
        · split at heq
          · injection heq with ha hb
            injection ha with ha
            subst ha
            exact hstep
          · injection heq with ha hb
            injection ha with ha
            subst ha
            exact hstep
  | succ fuel ih =>
      intro a c h res n heq hh ht
      rw [fnLoopAux.eq_def] at heq
      dsimp only at heq
      rcases hsr : sr { input_json := src, correction_msg := c } a with e | single <;>
        rw [hsr] at heq
      · injection heq with ha hb
        exact Except.noConfusion ha
      · have hstep : chainedFrom fnBuildCorrectionMsg (fun s => s.payload.correction_msg) c0
            (h ++ [single]) :=
          chainedFrom_concat _ _ _ _ _ hh (by rw [hpay _ _ _ hsr, ht])
        simp only at heq
        split at heq
        · injection heq with ha hb
          injection ha with ha
          subst ha
          exact hstep
        · split at heq
          · injection heq with ha hb
            injection ha with ha
            subst ha
            exact hstep
          · rcases hrec : fnLoopAux maxA sr src fuel (a + 1)
                (fnBuildCorrectionMsg single) (h ++ [single]) with ⟨res2, n2⟩
            rw [hrec] at heq
            dsimp only at heq
            injection heq with ha hb
            exact ih (a + 1) (fnBuildCorrectionMsg single) (h ++ [single]) res n2
              (by rw [hrec, ha]) hstep (chainTail_concat _ _ _ _)

theorem fnLoopAux_mem_src (maxA : Nat) (sr : Payload → Nat → Except PyErr FnSingle)
    (src : PyVal) (hpay : ∀ p k s, sr p k = .ok s → s.payload = p) :
    ∀ fuel attempts correction history res n,
      fnLoopAux maxA sr src fuel attempts correction history = (.ok res, n) →
      (∀ s ∈ history, s.payload.input_json = src) →
      ∀ s ∈ res.attempt_history, s.payload.input_json = src := by
  intro fuel
  induction fuel with
  | zero =>
      intro a c h res n heq hh
      simp only [fnLoopAux] at heq
      rcases hsr : sr { input_json := src, correction_msg := c } a with e | single <;>
        rw [hsr] at heq
      · injection heq with ha hb
        exact Except.noConfusion ha
      · have hh2 : ∀ s ∈ h ++ [single], s.payload.input_json = src := by
          intro s hs
          rcases List.mem_append.mp hs with hs | hs
          · exact hh s hs
          · simp at hs; subst hs; rw [hpay _ _ _ hsr]
        simp only at heq
        split at heq
        · injection heq with ha hb
          injection ha with ha
          subst ha
          exact hh2
        · split at heq
          · injection heq with ha hb
            injection ha with ha
            subst ha
            exact hh2
          · injection heq with ha hb
            injection ha with ha
            subst ha
            exact hh2
  | succ fuel ih =>
      intro a c h res n heq hh
      rw [fnLoopAux.eq_def] at heq
      dsimp only at heq
      rcases hsr : sr { input_json := src, correction_msg := c } a with e | single <;>
        rw [hsr] at heq
      · injection heq with ha hb
        exact Except.noConfusion ha
      · have hh2 : ∀ s ∈ h ++ [single], s.payload.input_json = src := by
          intro s hs
          rcases List.mem_append.mp hs with hs | hs
          · exact hh s hs
          · simp at hs; subst hs; rw [hpay _ _ _ hsr]
        simp only at heq
        split at heq
        · injection heq with ha hb
          injection ha with ha
          subst ha
          exact hh2
        · split at heq
          · injection heq with ha hb
            injection ha with ha
            subst ha
            exact hh2
          · rcases hrec : fnLoopAux maxA sr src fuel (a + 1)
                (fnBuildCorrectionMsg single) (h ++ [single]) with ⟨res2, n2⟩
            rw [hrec] at heq
            dsimp only at heq
            injection heq with ha hb
            exact ih (a + 1) (fnBuildCorrectionMsg single) (h ++ [single]) res n2
              (by rw [hrec, ha]) hh2

theorem iterSingleRun_exc (env : IterEnv) (p : Payload) (k : Nat) (msg : String)
    (hinv : env.invoke k = .exc msg) :
    (iterSingleRun env p k).error = true
    ∧ (iterSingleRun env p k).error_type = some ErrorType.LLM_CALL_EXCEPTION := by
  simp [iterSingleRun, hinv]

theorem fnSingleRun_exc (env : FnEnv) (p : Payload) (k : Nat) (msg : String)
    (hinv : env.invoke k = .exc msg) :
    fnSingleRun env p k =
      .ok { attempt := k, payload := p, llm_time := none, response_raw := none,
            response_parsed := none, function_result := none, error := true,
            error_msg := some (.s msg), error_type := some ErrorType.LLM_CALL_EXCEPTION,
            input_tokens := none, output_tokens := none, total_tokens := none } := by
  simp only [fnSingleRun, hinv]

/-! ## Claim theorems -/

/-- Claim C10 (confirmed).  Variant selection is enforced at construction:
`IterativeRefiner.__init__` raises `ValueError` exactly when the wrapped
model of the wrapped mapper is not a `ChatOllama` instance or its prompt type is
`mapping_function`, and `FunctionRefiner.__init__` raises `ValueError`
exactly when the prompt type is not `mapping_function` or the model is not a
`ChatOllama` instance.  The constructors are pure configuration checks — no
adapter call occurs (the embedded constructors do not consult any adapter
environment at all). -/
theorem c10_constructor_validation :
    ∀ (bm : LlmMappingModel) (n : Nat),
      (exceptIsError (IterativeRefiner.make bm n) = true ↔
        (bm.prompt_type = .mapping_function ∨ bm.llm_is_chat_ollama = false))
      ∧ (exceptIsError (FunctionRefiner.make bm n) = true ↔
        (bm.prompt_type ≠ .mapping_function ∨ bm.llm_is_chat_ollama = false)) := by
  intro bm n
  obtain ⟨ollama, pt⟩ := bm
  cases ollama <;> cases pt <;>
    simp [IterativeRefiner.make, FunctionRefiner.make, exceptIsError]

/-- Claim C1 (corrected), counterexample.  With configured `max_attempts = n = 0`
and an adapter that fails retryably on every attempt, one
`IterativeRefiner.__call__` run performs `2 > n + 1 = 1` calls of
`_single_run`: the constructor stores `max(1, 0) = 1`, so a retry happens.
Each loop iteration appends exactly one `_single_run` record to the history,
so the history length counts the adapter invocations. -/
theorem c1_counterexample :
    ((IterativeRefiner.make bmIter 0).map
      (fun r => (r.call envParseFail srcA).attempt_history.length)) = .ok 2
    ∧ ¬ (2 ≤ 0 + 1) := ⟨rfl, by decide⟩

/-- Claim C1 (corrected), amended claim: one refinement run of either variant
always terminates (the loop functions are total) and performs at most
`max(1, n) + 1` adapter invocations — equal to `n + 1` whenever `n ≥ 1` and
at most `2` when `n = 0`.  For `IterativeRefiner` the invocation count is the
history length; for `FunctionRefiner` it is the ghost counter, which also
counts an invocation whose record was lost to the propagating exception. -/
theorem c1_amended_bound :
    (∀ (bm : LlmMappingModel) (n : Nat) (r : IterativeRefiner) (env : IterEnv) (src : PyVal),
        IterativeRefiner.make bm n = .ok r →
        (r.call env src).attempt_history.length ≤ max 1 n + 1)
    ∧ (∀ (bm : LlmMappingModel) (n : Nat) (r : FunctionRefiner) (env : FnEnv) (src : PyVal),
        FunctionRefiner.make bm n = .ok r →
        (r.call env src).2 ≤ max 1 n + 1) := by
  constructor
  · intro bm n r env src hmk
    have hr := iterMake_ok hmk
    subst hr
    obtain ⟨h1, h2, h3, h4⟩ :=
      iterLoopAux_basic (max 1 n) (iterSingleRun env) src (max 1 n) 0 "" []
    simp only [IterativeRefiner.call]
    simp only [List.length_nil] at h1
    omega
  · intro bm n r env src hmk
    have hr := fnMake_ok hmk
    subst hr
    have := fnLoopAux_count_le (max 1 n) (fnSingleRun env) src (max 1 n) 0 "" []
    simp only [FunctionRefiner.call]
    omega

/-- Witness for `c1_amended_bound` at concrete configurations. -/
theorem c1_amended_bound_witness :
    (IterativeRefiner.call { base_mapper := bmIter, max_attempts := 1 }
        envParseFail srcA).attempt_history.length ≤ max 1 0 + 1
    ∧ (FunctionRefiner.call { base_mapper := bmFn, max_attempts := 3 }
        envFnReplyOk srcA).2 ≤ max 1 3 + 1 :=
  ⟨c1_amended_bound.1 bmIter 0 _ envParseFail srcA rfl,
   c1_amended_bound.2 bmFn 3 _ envFnReplyOk srcA rfl⟩

/-- Claim C2 (corrected), counterexample.  Constructed with `max_attempts = 0`
and facing a retryable failure (`PARSING_EXCEPTION`) on attempt 0, the
`IterativeRefiner` run does retry: it returns `refinement_attempts = 1` and a
two-entry history, not `attempts_consumed = 0` with a single-entry history as
the claim states for every adapter outcome. -/
theorem c2_counterexample :
    ((IterativeRefiner.make bmIter 0).map
      (fun r => ((r.call envParseFail srcA).refinement_attempts,
                 (r.call envParseFail srcA).attempt_history.length))) = .ok (1, 2) := rfl

/-- Claim C2 (corrected), amended claim: both constructors clamp the configured
`max_attempts = 0` to a stored bound of `1` (`max(1, max_attempts)`), so a
run is *not* limited to one attempt: whenever attempt 0 fails (any error
kind — the direct-mapping loop has no non-retryable check), the
`IterativeRefiner` run performs exactly one retry and terminates with
`refinement_attempts = 1` and a two-entry history. -/
theorem c2_amended :
    ∀ (bm bm2 : LlmMappingModel) (r : IterativeRefiner) (r2 : FunctionRefiner),
      IterativeRefiner.make bm 0 = .ok r →
      FunctionRefiner.make bm2 0 = .ok r2 →
      r.max_attempts = 1 ∧ r2.max_attempts = 1 ∧
      (∀ (env : IterEnv) (src : PyVal),
        (iterSingleRun env { input_json := src, correction_msg := "" } 0).error = true →
        (r.call env src).refinement_attempts = 1
        ∧ (r.call env src).attempt_history.length = 2) := by
  intro bm bm2 r r2 h1 h2
  have hr := iterMake_ok h1
  have hr2 := fnMake_ok h2
  subst hr; subst hr2
  refine ⟨rfl, rfl, ?_⟩
  intro env src herr
  have hcall : IterativeRefiner.call { base_mapper := bm, max_attempts := max 1 0 } env src
      = iterLoopAux 1 (iterSingleRun env) src 1 0 "" [] := rfl
  rw [hcall]
  simp [iterLoopAux, herr]

/-- Witness for `c2_amended` at a concrete configuration. -/
theorem c2_amended_witness :
    ({ base_mapper := bmIter, max_attempts := 1 } : IterativeRefiner).max_attempts = 1
    ∧ ({ base_mapper := bmFn, max_attempts := 1 } : FunctionRefiner).max_attempts = 1
    ∧ ((IterativeRefiner.call { base_mapper := bmIter, max_attempts := 1 }
          envParseFail srcA).refinement_attempts = 1
        ∧ (IterativeRefiner.call { base_mapper := bmIter, max_attempts := 1 }
            envParseFail srcA).attempt_history.length = 2) := by
  obtain ⟨w1, w2, w3⟩ := c2_amended bmIter bmFn _ _ rfl rfl
  exact ⟨w1, w2, w3 envParseFail srcA rfl⟩

/-- Claim C3 (code_bug).  The propagation policy is violated by the code.
First conjunct: a `FunctionRefiner` run whose model call succeeds (any reply)
raises `UnboundLocalError` to its caller — line 121 of function_refiner.py,
`raw = self.strip_thinking_tags(raw)`, reads the never-assigned local `raw`
while stripping the reply, and `__call__` has no handler.  Second conjunct: in
`LlmMapping.__process_mapping_function` only `SyntaxError` is caught around
`exec`, so a runtime exception raised by the top-level
statements of the generated source (here `x = 1 / 0` → `ZeroDivisionError`) propagates to the caller
instead of being captured into the attempt record. -/
theorem c3_code_bug_raises :
    ((FunctionRefiner.make bmFn 3).map (fun r => (r.call envFnReplyOk srcA).1))
      = .ok (.error (.unboundLocal "raw"))
    ∧ (processMappingFunction envMFExecRaises srcA).1
      = .error (.execError "division by zero") := ⟨rfl, rfl⟩

/-- Claim C4 (corrected), counterexample.  The claim covers both loops, but
`IterativeRefiner.__call__` has no non-retryable check at all: with
`max_attempts = 2 > 0` and every adapter call raising, the run retries
`LLM_CALL_EXCEPTION` and terminates only at the bound, with
`refinement_attempts = 2` (three adapter calls), not immediately with
`attempts_consumed = 0` as claimed. -/
theorem c4_counterexample :
    ((IterativeRefiner.make bmIter 2).map
      (fun r => ((r.call envInvokeExc srcA).refinement_attempts,
                 (r.call envInvokeExc srcA).attempt_history.length,
                 (r.call envInvokeExc srcA).single.error_type)))
      = .ok (2, 3, some ErrorType.LLM_CALL_EXCEPTION)
    ∧ (2 : Nat) ≠ 0 := ⟨rfl, by decide⟩

/-- Claim C4 (corrected), amended claim.  In `FunctionRefiner` the claim holds:
`LLM_CALL_EXCEPTION` is the only kind outside the retryable set, and an
adapter exception on attempt 0 terminates the run immediately with
`refinement_attempts = 0`, a single-entry history and exactly one adapter
call, even when `max_attempts > 0`.  In `IterativeRefiner`, however,
`LLM_CALL_EXCEPTION` is retried like every other error: when every call
raises, the run terminates only at the stored bound with
`refinement_attempts = max_attempts`. -/
theorem c4_amended :
    (∀ (bm : LlmMappingModel) (n : Nat) (r : FunctionRefiner) (env : FnEnv)
        (src : PyVal) (msg : String),
        FunctionRefiner.make bm n = .ok r →
        env.invoke 0 = .exc msg →
        (r.call env src).2 = 1
        ∧ ∃ res, (r.call env src).1 = .ok res
            ∧ res.refinement_attempts = 0
            ∧ res.single.error_type = some ErrorType.LLM_CALL_EXCEPTION
            ∧ res.attempt_history = [res.single])
    ∧ (∀ (bm : LlmMappingModel) (n : Nat) (r : IterativeRefiner) (env : IterEnv)
        (src : PyVal),
        IterativeRefiner.make bm n = .ok r →
        (∀ k, ∃ m, env.invoke k = .exc m) →
        (r.call env src).refinement_attempts = r.max_attempts
        ∧ (r.call env src).single.error_type = some ErrorType.LLM_CALL_EXCEPTION) := by
  constructor
  · intro bm n r env src msg hmk hinv
    have hr := fnMake_ok hmk
    subst hr
    have hsr := fnSingleRun_exc env { input_json := src, correction_msg := "" } 0 msg hinv
    have hterm := fnLoopAux_fatal (max 1 n) (fnSingleRun env) src (max 1 n) 0 "" []
      _ hsr rfl rfl
    have hcall : FunctionRefiner.call { base_mapper := bm, max_attempts := max 1 n } env src
        = fnLoopAux (max 1 n) (fnSingleRun env) src (max 1 n) 0 "" [] := rfl
    rw [hcall, hterm]
    exact ⟨rfl, _, rfl, rfl, rfl, rfl⟩
  · intro bm n r env src hmk hall
    have hr := iterMake_ok hmk
    subst hr
    have herr : ∀ p k, (iterSingleRun env p k).error = true := by
      intro p k
      obtain ⟨m, hm⟩ := hall k
      exact (iterSingleRun_exc env p k m hm).1
    have htype : ∀ p k, (iterSingleRun env p k).error_type
        = some ErrorType.LLM_CALL_EXCEPTION := by
      intro p k
      obtain ⟨m, hm⟩ := hall k
      exact (iterSingleRun_exc env p k m hm).2
    exact iterLoopAux_all_error (max 1 n) (iterSingleRun env) src herr htype
      (max 1 n) 0 "" [] (by omega)

/-- Witness for `c4_amended` at concrete configurations. -/
theorem c4_amended_witness :
    ((FunctionRefiner.call { base_mapper := bmFn, max_attempts := 3 }
        envFnInvokeExc srcA).2 = 1
      ∧ ∃ res, (FunctionRefiner.call { base_mapper := bmFn, max_attempts := 3 }
            envFnInvokeExc srcA).1 = .ok res
          ∧ res.refinement_attempts = 0
          ∧ res.single.error_type = some ErrorType.LLM_CALL_EXCEPTION
          ∧ res.attempt_history = [res.single])
    ∧ ((IterativeRefiner.call { base_mapper := bmIter, max_attempts := 2 }
          envInvokeExc srcA).refinement_attempts
        = ({ base_mapper := bmIter, max_attempts := 2 } : IterativeRefiner).max_attempts
      ∧ (IterativeRefiner.call { base_mapper := bmIter, max_attempts := 2 }
          envInvokeExc srcA).single.error_type = some ErrorType.LLM_CALL_EXCEPTION) :=
  ⟨c4_amended.1 bmFn 3 _ envFnInvokeExc srcA "connection refused" rfl rfl,
   c4_amended.2 bmIter 2 _ envInvokeExc srcA rfl
     (fun _ => ⟨"connection refused", rfl⟩)⟩

/-- Claim C5 (confirmed).  Every terminated refinement run satisfies
`len(attempt_history) == refinement_attempts + 1`, and the last history entry
is the attempt record that produced the terminal result (the terminal single
carried in the returned dict).  For `FunctionRefiner` this is stated for runs
that return normally; a run that raises returns no result dict at all. -/
theorem c5_history_invariant :
    (∀ (r : IterativeRefiner) (env : IterEnv) (src : PyVal),
        (r.call env src).attempt_history.length = (r.call env src).refinement_attempts + 1
        ∧ (r.call env src).attempt_history.getLast? = some (r.call env src).single)
    ∧ (∀ (r : FunctionRefiner) (env : FnEnv) (src : PyVal) (res : FnResult) (n : Nat),
        r.call env src = (.ok res, n) →
        res.attempt_history.length = res.refinement_attempts + 1
        ∧ res.attempt_history.getLast? = some res.single) := by
  constructor
  · intro r env src
    obtain ⟨h1, h2, h3, h4⟩ :=
      iterLoopAux_basic r.max_attempts (iterSingleRun env) src r.max_attempts 0 "" []
    simp only [List.length_nil] at h1
    exact ⟨by simpa using h1, h4⟩
  · intro r env src res n heq
    obtain ⟨h1, h2, h3⟩ :=
      fnLoopAux_ok_inv r.max_attempts (fnSingleRun env) src r.max_attempts 0 "" [] res n heq
    simp only [List.length_nil] at h1
    exact ⟨by simpa using h1, h3⟩

/-- Witness for `c5_history_invariant` at concrete runs. -/
theorem c5_history_invariant_witness :
    ((IterativeRefiner.call { base_mapper := bmIter, max_attempts := 2 }
        envParseFail srcA).attempt_history.length
      = (IterativeRefiner.call { base_mapper := bmIter, max_attempts := 2 }
          envParseFail srcA).refinement_attempts + 1)
    ∧ fnExcResult.attempt_history.length = fnExcResult.refinement_attempts + 1 :=
  ⟨(c5_history_invariant.1 { base_mapper := bmIter, max_attempts := 2 }
      envParseFail srcA).1,
   (c5_history_invariant.2 { base_mapper := bmFn, max_attempts := 3 }
      envFnInvokeExc srcA fnExcResult 1 rfl).1⟩

/-- Claim C6 (confirmed).  Success is terminal.  At the loop level (for an
arbitrary single-run step), an attempt whose record carries `error = false`
makes the loop return immediately with the current attempt count and no
further calls — stated for both the direct-mapping loop and the
code-generation loop (whose immediate return also reports exactly one
invocation).  Consequently, a run whose first attempt succeeds returns
`refinement_attempts = 0` with a one-entry history whose entry is
successful. -/
theorem c6_success_terminal :
    (∀ (maxA : Nat) (sr : Payload → Nat → IterSingle) (src : PyVal) (fuel a : Nat)
        (c : String) (h : List IterSingle),
        (sr { input_json := src, correction_msg := c } a).error = false →
        iterLoopAux maxA sr src fuel a c h =
          { single := sr { input_json := src, correction_msg := c } a,
            refinement_attempts := a,
            attempt_history := h ++ [sr { input_json := src, correction_msg := c } a] })
    ∧ (∀ (maxA : Nat) (sr : Payload → Nat → Except PyErr FnSingle) (src : PyVal)
        (fuel a : Nat) (c : String) (h : List FnSingle) (single : FnSingle),
        sr { input_json := src, correction_msg := c } a = .ok single →
        single.error = false →
        fnLoopAux maxA sr src fuel a c h =
          (.ok { single := single, refinement_attempts := a,
                 attempt_history := h ++ [single] }, 1))
    ∧ (∀ (r : IterativeRefiner) (env : IterEnv) (src : PyVal),
        (iterSingleRun env { input_json := src, correction_msg := "" } 0).error = false →
        (r.call env src).refinement_attempts = 0
        ∧ (r.call env src).attempt_history
            = [iterSingleRun env { input_json := src, correction_msg := "" } 0]
        ∧ (r.call env src).single.error = false) := by
  refine ⟨iterLoopAux_success, fnLoopAux_success, ?_⟩
  intro r env src hok
  have hterm := iterLoopAux_success r.max_attempts (iterSingleRun env) src
    r.max_attempts 0 "" [] hok
  have hcall : r.call env src
      = iterLoopAux r.max_attempts (iterSingleRun env) src r.max_attempts 0 "" [] := rfl
  rw [hcall, hterm]
  exact ⟨rfl, by simp, hok⟩

/-- Witness for `c6_success_terminal` at concrete runs. -/
theorem c6_success_terminal_witness :
    (fnLoopAux 3 (fun _ _ => .ok fnOkSingle) srcA 3 0 "" []
        = (.ok { single := fnOkSingle, refinement_attempts := 0,
                 attempt_history := [fnOkSingle] }, 1))
    ∧ ((IterativeRefiner.call { base_mapper := bmIter, max_attempts := 3 }
          envParseOk srcA).refinement_attempts = 0
        ∧ (IterativeRefiner.call { base_mapper := bmIter, max_attempts := 3 }
            envParseOk srcA).attempt_history
          = [iterSingleRun envParseOk { input_json := srcA, correction_msg := "" } 0]
        ∧ (IterativeRefiner.call { base_mapper := bmIter, max_attempts := 3 }
            envParseOk srcA).single.error = false) :=
  ⟨by
    have := c6_success_terminal.2.1 3 (fun _ _ => .ok fnOkSingle) srcA 3 0 "" []
      fnOkSingle rfl rfl
    simpa using this,
   c6_success_terminal.2.2 { base_mapper := bmIter, max_attempts := 3 } envParseOk srcA rfl⟩

/-- Claim C7 (confirmed).  The feedback entering attempt `k+1` is a function of
the record of attempt `k` only: in every terminated run, the recorded history is
chained — entry 0 was requested with the empty initial correction message and
each entry `k+1` was requested with exactly the text built from entry `k` by
the correction builder.  Two runs agreeing on the record of attempt `k` therefore
feed identical correction text into attempt `k+1`, whatever their earlier
attempts were. -/
theorem c7_feedback_from_last_only :
    (∀ (r : IterativeRefiner) (env : IterEnv) (src : PyVal),
        chainedFrom iterBuildCorrectionMsg (fun s => s.payload.correction_msg) ""
          (r.call env src).attempt_history)
    ∧ (∀ (r : FunctionRefiner) (env : FnEnv) (src : PyVal) (res : FnResult) (n : Nat),
        r.call env src = (.ok res, n) →
        chainedFrom fnBuildCorrectionMsg (fun s => s.payload.correction_msg) ""
          res.attempt_history) := by
  constructor
  · intro r env src
    exact iterLoopAux_chained r.max_attempts (iterSingleRun env) src
      (fun p k => iterSingleRun_payload env p k) "" r.max_attempts 0 "" [] trivial rfl
  · intro r env src res n heq
    exact fnLoopAux_chained r.max_attempts (fnSingleRun env) src
      (fun p k s hs => fnSingleRun_payload env p k s hs) "" r.max_attempts 0 "" []
      res n heq trivial rfl

/-- Witness for `c7_feedback_from_last_only` at concrete runs. -/
theorem c7_feedback_from_last_only_witness :
    chainedFrom iterBuildCorrectionMsg (fun s => s.payload.correction_msg) ""
      (IterativeRefiner.call { base_mapper := bmIter, max_attempts := 2 }
        envParseFail srcA).attempt_history
    ∧ chainedFrom fnBuildCorrectionMsg (fun s => s.payload.correction_msg) ""
        fnExcResult.attempt_history :=
  ⟨c7_feedback_from_last_only.1 { base_mapper := bmIter, max_attempts := 2 }
      envParseFail srcA,
   c7_feedback_from_last_only.2 { base_mapper := bmFn, max_attempts := 3 }
      envFnInvokeExc srcA fnExcResult 1 rfl⟩

/-- Claim C8 (corrected), counterexample.  The claim fails on the code: the
lookup is `local_vars.get("map_raw_to_standard", None)` followed by an
`is None` test (llm_mapping.py lines 239-247), so the generated source
`map_raw_to_standard = None` — entry-point name present, bound value not
callable — is classified `FUNCTION_NOT_FOUND`, not `FUNCTION_NOT_CALLABLE`
as the claim requires for every generated source. -/
theorem c8_counterexample :
    ((processMappingFunction envMFNoneBinding srcA).1.map
      (fun res => (res.error, res.error_type)))
      = .ok (true, some ErrorType.FUNCTION_NOT_FOUND)
    ∧ some ErrorType.FUNCTION_NOT_FOUND ≠ some ErrorType.FUNCTION_NOT_CALLABLE :=
  ⟨rfl, by decide⟩

/-- Claim C8 (corrected), amended claim, on the reachable code-generation
pipeline `LlmMapping.__process_mapping_function`.  After a successful model
call, code-block check and `exec`: the entry-point name being absent from the
executed namespace, or present but bound to the Python value `None`, is
classified `FUNCTION_NOT_FOUND`; the name being bound to a value that is
neither `None` nor callable is classified `FUNCTION_NOT_CALLABLE` — a
distinct retryable kind — whatever the generated source was. -/
theorem c8_amended :
    ∀ (env : MFEnv) (src : PyVal) (reply : Reply) (u : Usage) (ns : ExecNamespace),
      env.invoke = .ok reply →
      reply.usage = some u →
      strContains (env.strip (pyTrim reply.text)) "```python" = true →
      pyEndsWith (env.strip (pyTrim reply.text)) "```" = true →
      env.execO (extractCode (env.strip (pyTrim reply.text))) = .ok ns →
      (((ns.binding = none ∨ ns.binding = some .pyNone) →
          ((processMappingFunction env src).1.map
            (fun res => (res.error, res.error_type)))
            = .ok (true, some ErrorType.FUNCTION_NOT_FOUND))
       ∧ (∀ rep, ns.binding = some (.notCallable rep) →
          ((processMappingFunction env src).1.map
            (fun res => (res.error, res.error_type)))
            = .ok (true, some ErrorType.FUNCTION_NOT_CALLABLE))) := by
  intro env src reply u ns hinv hu hcont hends hexec
  constructor
  · rintro (hlook | hlook) <;>
      simp [processMappingFunction, Except.map, hinv, hu, hcont, hends, hexec, hlook]
  · intro rep hlook
    simp [processMappingFunction, Except.map, hinv, hu, hcont, hends, hexec, hlook]

/-- Witness for `c8_amended` at concrete environments, one per classification
branch: absent name, name bound to `None`, and name bound to a non-callable
value. -/
theorem c8_amended_witness :
    ((processMappingFunction envMFNotFound srcA).1.map
      (fun res => (res.error, res.error_type)))
      = .ok (true, some ErrorType.FUNCTION_NOT_FOUND)
    ∧ ((processMappingFunction envMFNoneBinding srcA).1.map
        (fun res => (res.error, res.error_type)))
      = .ok (true, some ErrorType.FUNCTION_NOT_FOUND)
    ∧ ((processMappingFunction envMFNotCallable srcA).1.map
        (fun res => (res.error, res.error_type)))
      = .ok (true, some ErrorType.FUNCTION_NOT_CALLABLE) :=
  ⟨(c8_amended envMFNotFound srcA replyFnCode usageA
      { binding := none } rfl rfl rfl rfl rfl).1 (Or.inl rfl),
   (c8_amended envMFNoneBinding srcA replyNoneBinding usageA
      { binding := some .pyNone } rfl rfl rfl rfl rfl).1 (Or.inr rfl),
   (c8_amended envMFNotCallable srcA replyFnCode usageA
      { binding := some (.notCallable "int") } rfl rfl rfl rfl rfl).2 "int" rfl⟩

/-- Claim C9 (corrected), counterexample.  A single mapping call
(`LlmMapping.__process_mapping_function`) passes the very `source` object of the caller
itself to the generated function (llm_mapping.py line 261): a generated
function that mutates its argument in place leaves that object
changed, so the claim fails for "a single mapping call". -/
theorem c9_counterexample :
    (processMappingFunction envMFMutating srcA).2 = mutPost
    ∧ mutPost ≠ srcA := ⟨rfl, by decide⟩

/-- Claim C9 (corrected), amended claim.  The refinement runs themselves never
touch the mapping owned by the caller: both refiners deep-copy the source before the
loop, and the payload of every attempt record carries a value equal to the
source of the caller — `IterativeRefiner` executes no code at all, and
`FunctionRefiner` never reaches code execution.  But
`LlmMapping.__process_mapping_function` invokes the generated function on the
object of the caller directly, so a mutating generated function does change it. -/
theorem c9_amended :
    (∀ (r : IterativeRefiner) (env : IterEnv) (src : PyVal),
        ∀ s ∈ (r.call env src).attempt_history, s.payload.input_json = src)
    ∧ (∀ (r : FunctionRefiner) (env : FnEnv) (src : PyVal) (res : FnResult) (n : Nat),
        r.call env src = (.ok res, n) →
        ∀ s ∈ res.attempt_history, s.payload.input_json = src)
    ∧ (processMappingFunction envMFMutating srcA).2 ≠ srcA := by
  refine ⟨?_, ?_, by decide⟩
  · intro r env src
    exact iterLoopAux_mem_src r.max_attempts (iterSingleRun env) src
      (fun p k => iterSingleRun_payload env p k) r.max_attempts 0 "" [] (by simp)
  · intro r env src res n heq
    exact fnLoopAux_mem_src r.max_attempts (fnSingleRun env) src
      (fun p k s hs => fnSingleRun_payload env p k s hs) r.max_attempts 0 "" []
      res n heq (by simp)

/-- Witness for `c9_amended` at concrete runs. -/
theorem c9_amended_witness :
    iterOkSingle0.payload.input_json = srcA
    ∧ fnExcSingle0.payload.input_json = srcA :=
  ⟨c9_amended.1 { base_mapper := bmIter, max_attempts := 3 } envParseOk srcA
      iterOkSingle0 (by decide),
   c9_amended.2.1 { base_mapper := bmFn, max_attempts := 3 } envFnInvokeExc srcA
      fnExcResult 1 rfl fnExcSingle0 (by decide)⟩
